import Mathlib

/-!
Verification of the `Kama_memoryPool` fixed-size-class memory allocator
(`src/MemoryPool/v1/step3`): the per-size-class `MemoryPool` engine, the
`HashBucket` size-class router, and the typed facade
`newElement` / `deleteElement`.

Modelling conventions (shallow embedding of the C++ source):

* Addresses are natural numbers; `0` plays the role of `nullptr`.
* The one computation performed in `size_t` arithmetic that can wrap
  around (`lastSlot_ = (size_t)Block + BlockSize_ - SlotSize_ + 1`) is
  taken modulo `2 ^ 64` via `wsub`; pointer arithmetic whose overflow
  would be undefined behaviour in C++ is modelled as plain `Nat`
  addition.
* The Treiber free-stack (`freeList_`, `pushFreeList`, `popFreeList`) is
  modelled by its sequential abstraction, a `List Nat` of slot
  addresses: a push conses at the head (the successful CAS publish), a
  pop removes the head.  The cons cell plays the role of the intrusive
  `Slot::next` word stored in the first machine word of the freed slot.
* `operator new` never fails in the model; the address the system
  allocator would hand out next is passed to `allocate` / `useMemory`
  as the `fresh` argument.
* The growth mutex `mutexForBlock_` is instrumented by a counter
  `locks` which the locked section of `allocate` increments and which
  no other operation touches.
-/

namespace Kama_memoryPool

/-- Modulus of `size_t` arithmetic on the LP64 targets the pool is written
for. -/
def SIZE_T_MOD : Nat := 2 ^ 64

/-- Value of `sizeof(Slot)`: a `Slot` holds a single
`std::atomic<Slot*>`, 8 bytes. -/
def sizeofSlot : Nat := 8

/-- Value of `sizeof(Slot*)`: 8 bytes. -/
def sizeofSlotPtr : Nat := 8

/-- The macro `MEMORY_POOL_NUM` from `MemoryPool.h`. -/
def MEMORY_POOL_NUM : Nat := 64

/-- The macro `SLOT_BASE_SIZE` from `MemoryPool.h`. -/
def SLOT_BASE_SIZE : Nat := 8

/-- The macro `MAX_SLOT_SIZE` from `MemoryPool.h`. -/
def MAX_SLOT_SIZE : Nat := 512

/-- Wrap-around `size_t` subtraction: `(a - b) mod 2 ^ 64`. -/
def wsub (a b : Nat) : Nat :=
  (a % SIZE_T_MOD + (SIZE_T_MOD - b % SIZE_T_MOD)) % SIZE_T_MOD

/-- State of one `MemoryPool` object: the fields `BlockSize_`,
`SlotSize_`, `firstBlock_` (the chunk list, head first), `curSlot_`,
`lastSlot_` and `freeList_` of the C++ class, plus the `locks`
instrumentation counter for `mutexForBlock_`. -/
structure PoolState where
  blockSize : Nat
  slotSize : Nat
  firstBlock : List Nat
  curSlot : Nat
  lastSlot : Nat
  freeList : List Nat
  locks : Nat
deriving DecidableEq

namespace MemoryPool

/-- The constructor `MemoryPool(size_t BlockSize = 4096)`: slot size 0,
all pointers null, empty free list. -/
def create (blockSize : Nat := 4096) : PoolState :=
  { blockSize := blockSize
    slotSize := 0
    firstBlock := []
    curSlot := 0
    lastSlot := 0
    freeList := []
    locks := 0 }

/-- `MemoryPool::init(size)`: sets `SlotSize_` and resets the block list,
cursor, boundary and free list.  The source `assert(size > 0)` becomes a
`0 < size` hypothesis in the theorems below. -/
def init (st : PoolState) (size : Nat) : PoolState :=
  { st with
    slotSize := size
    firstBlock := []
    curSlot := 0
    lastSlot := 0
    freeList := [] }

/-- `MemoryPool::padPointer(p, align)`: distance from `p` up to the next
multiple of `align` (`rem == 0 ? 0 : align - rem`). -/
def padPointer (p align : Nat) : Nat :=
  let rem := p % align
  if rem = 0 then 0 else align - rem

/-- `MemoryPool::pushFreeList(slot)`: publish `slot` as the new head of
the free stack (sequential abstraction of the CAS loop). -/
def pushFreeList (st : PoolState) (slot : Nat) : PoolState :=
  { st with freeList := slot :: st.freeList }

/-- `MemoryPool::popFreeList()`: remove and return the head of the free
stack, or `none` when it is empty. -/
def popFreeList (st : PoolState) : Option Nat × PoolState :=
  match st.freeList with
  | [] => (none, st)
  | slot :: rest => (some slot, { st with freeList := rest })

/-- `MemoryPool::allocateNewBlock()` with `block` the address returned by
`operator new(BlockSize_)`: link the block at the head of the chunk
list, set the cursor to the padded first usable address past the header
word, and the boundary to `(size_t)block + BlockSize_ - SlotSize_ + 1`
(computed in wrap-around `size_t` arithmetic). -/
def allocateNewBlock (st : PoolState) (block : Nat) : PoolState :=
  let dataAddr := block + sizeofSlotPtr
  let padSize := padPointer dataAddr st.slotSize
  { st with
    firstBlock := block :: st.firstBlock
    curSlot := dataAddr + padSize
    lastSlot := (wsub (block + st.blockSize) st.slotSize + 1) % SIZE_T_MOD }

/-- `MemoryPool::allocate()`: first try `popFreeList`; otherwise, under
the block mutex (counted by `locks`), grow when `curSlot_ >= lastSlot_`,
return the cursor and advance it by `SlotSize_ / sizeof(Slot)` in
`Slot*` units, i.e. by `SlotSize_ / sizeof(Slot) * sizeof(Slot)`
bytes. -/
def allocate (st : PoolState) (fresh : Nat) : Nat × PoolState :=
  match popFreeList st with
  | (some slot, st') => (slot, st')
  | (none, st') =>
    let st1 : PoolState := { st' with locks := st'.locks + 1 }
    let st2 : PoolState :=
      if st1.lastSlot ≤ st1.curSlot then allocateNewBlock st1 fresh else st1
    (st2.curSlot,
      { st2 with curSlot := st2.curSlot + st2.slotSize / sizeofSlot * sizeofSlot })

/-- `MemoryPool::deallocate(ptr)`: no-op on null, otherwise push the slot
onto the free stack. -/
def deallocate (st : PoolState) (ptr : Nat) : PoolState :=
  if ptr = 0 then st else pushFreeList st ptr

end MemoryPool

/-- State of the `HashBucket` router: the static array
`memoryPool[MEMORY_POOL_NUM]` inside `getMemoryPool`, modelled as a
total function from indices to pool states. -/
structure HBState where
  pools : Nat → PoolState

namespace HashBucket

/-- Assignment `memoryPool[i] = p` to one cell of the static array. -/
def updatePools (reg : Nat → PoolState) (i : Nat) (p : PoolState) :
    Nat → PoolState :=
  fun j => if j = i then p else reg j

/-- The static array of `MEMORY_POOL_NUM` pools as it first comes into
existence inside `getMemoryPool` (Meyers-singleton default
construction): every entry is `MemoryPool(4096)`, with slot size 0. -/
def registryAtConstruction : Nat → PoolState := fun _ => MemoryPool.create 4096

/-- Router state right after the static array is constructed, before any
`initMemoryPool` call. -/
def initialHBState : HBState := ⟨registryAtConstruction⟩

/-- The loop body of `HashBucket::initMemoryPool`, folded left over the
loop indexes: each visited index `i` performs
`getMemoryPool(i).init((i + 1) * SLOT_BASE_SIZE)`. -/
def initMemoryPoolAux (reg : Nat → PoolState) : List Nat → (Nat → PoolState)
  | [] => reg
  | i :: rest =>
    initMemoryPoolAux
      (updatePools reg i (MemoryPool.init (reg i) ((i + 1) * SLOT_BASE_SIZE)))
      rest

/-- `HashBucket::initMemoryPool()`: run the loop
`for i = 0 .. MEMORY_POOL_NUM - 1`. -/
def initMemoryPool (st : HBState) : HBState :=
  ⟨initMemoryPoolAux st.pools (List.range MEMORY_POOL_NUM)⟩

/-- Router state after the explicit `HashBucket::initMemoryPool()` call
performed by the program's entry points. -/
def initializedHBState : HBState := initMemoryPool initialHBState

/-- Routing decision of the two router entry points. -/
inductive Route where
  | null
  | noop
  | system
  | pool (index : Nat)
deriving DecidableEq

/-- Branching structure of `HashBucket::useMemory(size)`: `size <= 0`
(for `size_t`, `size == 0`) returns null; `size > MAX_SLOT_SIZE` goes to
`operator new`; otherwise the pool with index
`((size + SLOT_BASE_SIZE - 1) / SLOT_BASE_SIZE) - 1` serves the
request. -/
def useMemoryRoute (size : Nat) : Route :=
  if size = 0 then Route.null
  else if MAX_SLOT_SIZE < size then Route.system
  else Route.pool ((size + SLOT_BASE_SIZE - 1) / SLOT_BASE_SIZE - 1)

/-- Branching structure of `HashBucket::freeMemory(ptr, size)`: null
pointer is a no-op; `size > MAX_SLOT_SIZE` goes to `operator delete`;
otherwise the index `((size + 7) / SLOT_BASE_SIZE) - 1` is computed in
`size_t` arithmetic (hence `wsub`: for `size = 0` it wraps around to
`2 ^ 64 - 1`). -/
def freeMemoryRoute (ptr size : Nat) : Route :=
  if ptr = 0 then Route.noop
  else if MAX_SLOT_SIZE < size then Route.system
  else Route.pool (wsub ((size + 7) / SLOT_BASE_SIZE) 1)

/-- `HashBucket::useMemory(size)` acting on the router state; `fresh` is
the address the system allocator would return (used by the oversize
branch and by pool growth).  On the pool branch the subtraction in the
index cannot wrap because `size ≥ 1` there. -/
def useMemory (st : HBState) (size : Nat) (fresh : Nat) : Nat × HBState :=
  if size = 0 then (0, st)
  else if MAX_SLOT_SIZE < size then (fresh, st)
  else
    let index := (size + SLOT_BASE_SIZE - 1) / SLOT_BASE_SIZE - 1
    let r := MemoryPool.allocate (st.pools index) fresh
    (r.1, ⟨updatePools st.pools index r.2⟩)

/-- `HashBucket::freeMemory(ptr, size)` acting on the router state.  The
oversize branch (`operator delete`) leaves the pool array unchanged. -/
def freeMemory (st : HBState) (ptr size : Nat) : HBState :=
  if ptr = 0 then st
  else if MAX_SLOT_SIZE < size then st
  else
    let index := wsub ((size + 7) / SLOT_BASE_SIZE) 1
    ⟨updatePools st.pools index (MemoryPool.deallocate (st.pools index) ptr)⟩

end HashBucket

/-- `newElement<T>(args...)`: request `sizeof(T)` bytes from the router
and, when the result is non-null, placement-construct one `T` there.
The third component counts the constructions of `T` performed. -/
def newElement (st : HBState) (sizeofT : Nat) (fresh : Nat) :
    Nat × HBState × Nat :=
  let r := HashBucket.useMemory st sizeofT fresh
  (r.1, r.2, if r.1 = 0 then 0 else 1)

/-- `deleteElement<T>(p)`: no-op on null; otherwise run exactly one
destructor of `T` (counted by the second component) and return the
storage via `freeMemory(p, sizeof(T))`. -/
def deleteElement (st : HBState) (p : Nat) (sizeofT : Nat) : HBState × Nat :=
  if p = 0 then (st, 0)
  else (HashBucket.freeMemory st p sizeofT, 1)

/-- A pool is alignment-clean for its own slot size: the bump cursor and
every address parked on the free stack are multiples of `slotSize`. -/
def AlignedState (st : PoolState) : Prop :=
  st.curSlot % st.slotSize = 0 ∧ ∀ a ∈ st.freeList, a % st.slotSize = 0

instance (st : PoolState) : Decidable (AlignedState st) :=
  decidable_of_iff
    (st.curSlot % st.slotSize = 0 ∧ ∀ a ∈ st.freeList, a % st.slotSize = 0)
    Iff.rfl

/-- A pool configured like the smallest size class: slot size 8, block
size 4096.  Used as the concrete state of several witnesses. -/
def pool8 : PoolState := MemoryPool.init (MemoryPool.create 4096) 8


namespace MemoryPool

/-- Unfolding of `popFreeList` on an empty free stack. -/
lemma popFreeList_nil (st : PoolState) (h : st.freeList = []) :
    popFreeList st = (none, st) := by
  unfold popFreeList
  rw [h]

/-- Unfolding of `popFreeList` on a non-empty free stack. -/
lemma popFreeList_cons (st : PoolState) (a : Nat) (l : List Nat)
    (h : st.freeList = a :: l) :
    popFreeList st = (some a, { st with freeList := l }) := by
  unfold popFreeList
  rw [h]

/-- Unfolding of `allocate` on a non-empty free stack: the popped head is
returned directly. -/
lemma allocate_cons (st : PoolState) (fresh : Nat) (a : Nat) (l : List Nat)
    (h : st.freeList = a :: l) :
    allocate st fresh = (a, { st with freeList := l }) := by
  unfold allocate
  rw [popFreeList_cons st a l h]

/-- Unfolding of `allocate` on an empty free stack and a cursor strictly
below the boundary: the bump path without growth. -/
lemma allocate_noGrow (st : PoolState) (fresh : Nat) (h : st.freeList = [])
    (hg : st.curSlot < st.lastSlot) :
    allocate st fresh =
      (st.curSlot,
       { st with
         locks := st.locks + 1
         curSlot := st.curSlot + st.slotSize / sizeofSlot * sizeofSlot }) := by
  unfold allocate
  rw [popFreeList_nil st h]
  simp only
  rw [if_neg (by omega)]

/-- Unfolding of `allocate` on an empty free stack with an exhausted
cursor: the growth path through `allocateNewBlock`. -/
lemma allocate_grow (st : PoolState) (fresh : Nat) (h : st.freeList = [])
    (hg : st.lastSlot ≤ st.curSlot) :
    allocate st fresh =
      ((allocateNewBlock { st with locks := st.locks + 1 } fresh).curSlot,
       { allocateNewBlock { st with locks := st.locks + 1 } fresh with
         curSlot :=
           (allocateNewBlock { st with locks := st.locks + 1 } fresh).curSlot
             + st.slotSize / sizeofSlot * sizeofSlot }) := by
  unfold allocate
  rw [popFreeList_nil st h]
  simp only
  rw [if_pos (by omega)]
  simp [allocateNewBlock]

end MemoryPool

/-- C1: the router `HashBucket::useMemory` sends a request of exactly
`MAX_SLOT_SIZE = 512` bytes to the last pool index
`MEMORY_POOL_NUM - 1 = 63` through the formula
`((size + SLOT_BASE_SIZE - 1) / SLOT_BASE_SIZE) - 1`; a request of 513
bytes bypasses the pool table and goes to the system allocator, leaving
every pool untouched; a request of size 0 returns null and leaves the
state unchanged. -/
theorem useMemory_router_boundary (st : HBState) (fresh : Nat) :
    HashBucket.useMemoryRoute MAX_SLOT_SIZE
        = HashBucket.Route.pool (MEMORY_POOL_NUM - 1)
    ∧ (MAX_SLOT_SIZE + SLOT_BASE_SIZE - 1) / SLOT_BASE_SIZE - 1
        = MEMORY_POOL_NUM - 1
    ∧ (HashBucket.useMemory st MAX_SLOT_SIZE fresh).1
        = (MemoryPool.allocate (st.pools (MEMORY_POOL_NUM - 1)) fresh).1
    ∧ HashBucket.useMemoryRoute (MAX_SLOT_SIZE + 1) = HashBucket.Route.system
    ∧ HashBucket.useMemory st (MAX_SLOT_SIZE + 1) fresh = (fresh, st)
    ∧ HashBucket.useMemoryRoute 0 = HashBucket.Route.null
    ∧ HashBucket.useMemory st 0 fresh = (0, st) := by
  refine ⟨by decide, by decide, ?_, by decide, ?_, by decide, ?_⟩
  · show (HashBucket.useMemory st 512 fresh).1 = _
    norm_num [HashBucket.useMemory, MAX_SLOT_SIZE, SLOT_BASE_SIZE,
      MEMORY_POOL_NUM]
  · show HashBucket.useMemory st 513 fresh = _
    norm_num [HashBucket.useMemory, MAX_SLOT_SIZE]
  · norm_num [HashBucket.useMemory]

/-- C2: LIFO reuse.  From any pool state, allocate an address `A`, then
allocate `B`, then `deallocate(A)`: the next `allocate` returns exactly
`A`, because `deallocate` pushes `A` at the head of the free stack and
`allocate` serves the free-stack head before touching the bump path. -/
theorem allocate_lifo_reuse (st : PoolState) (f1 f2 f3 : Nat)
    (hA : (MemoryPool.allocate st f1).1 ≠ 0) :
    (MemoryPool.allocate
      (MemoryPool.deallocate
        (MemoryPool.allocate (MemoryPool.allocate st f1).2 f2).2
        (MemoryPool.allocate st f1).1) f3).1
      = (MemoryPool.allocate st f1).1 := by
  set a := (MemoryPool.allocate st f1).1 with ha
  set st2 := (MemoryPool.allocate (MemoryPool.allocate st f1).2 f2).2 with hst2
  have hd : MemoryPool.deallocate st2 a = { st2 with freeList := a :: st2.freeList } := by
    unfold MemoryPool.deallocate MemoryPool.pushFreeList
    rw [if_neg hA]
  rw [hd, MemoryPool.allocate_cons _ f3 a st2.freeList rfl]

/-- C2 witness: concrete run on a freshly initialized 8-byte pool with
block address 1024: `A = 1032` is returned again after the
allocate-allocate-free sequence. -/
theorem allocate_lifo_reuse_witness :
    (MemoryPool.allocate pool8 1024).1 ≠ 0
    ∧ (MemoryPool.allocate
        (MemoryPool.deallocate
          (MemoryPool.allocate (MemoryPool.allocate pool8 1024).2 2048).2
          (MemoryPool.allocate pool8 1024).1) 4096).1
        = (MemoryPool.allocate pool8 1024).1 :=
  ⟨by decide, allocate_lifo_reuse pool8 1024 2048 4096 (by decide)⟩

/-- C10: frame effect of `deallocate` on a non-null address: the free
stack gains the freed address at its head (the model of writing the
slot's intrusive next word and publishing the new head), while the slot
size, bump cursor, boundary, chunk list, block size and the growth-lock
counter are all unchanged: no lock is taken and no chunk is acquired or
released. -/
theorem deallocate_frame_effect (st : PoolState) (ptr : Nat) (h : ptr ≠ 0) :
    (MemoryPool.deallocate st ptr).freeList = ptr :: st.freeList
    ∧ (MemoryPool.deallocate st ptr).slotSize = st.slotSize
    ∧ (MemoryPool.deallocate st ptr).curSlot = st.curSlot
    ∧ (MemoryPool.deallocate st ptr).lastSlot = st.lastSlot
    ∧ (MemoryPool.deallocate st ptr).firstBlock = st.firstBlock
    ∧ (MemoryPool.deallocate st ptr).blockSize = st.blockSize
    ∧ (MemoryPool.deallocate st ptr).locks = st.locks := by
  have hd : MemoryPool.deallocate st ptr = { st with freeList := ptr :: st.freeList } := by
    unfold MemoryPool.deallocate MemoryPool.pushFreeList
    rw [if_neg h]
  rw [hd]
  exact ⟨rfl, rfl, rfl, rfl, rfl, rfl, rfl⟩

/-- C10 witness: freeing address 8 into the concrete 8-byte pool changes
only the free stack. -/
theorem deallocate_frame_effect_witness :
    (8 : Nat) ≠ 0
    ∧ ((MemoryPool.deallocate pool8 8).freeList = 8 :: pool8.freeList
      ∧ (MemoryPool.deallocate pool8 8).slotSize = pool8.slotSize
      ∧ (MemoryPool.deallocate pool8 8).curSlot = pool8.curSlot
      ∧ (MemoryPool.deallocate pool8 8).lastSlot = pool8.lastSlot
      ∧ (MemoryPool.deallocate pool8 8).firstBlock = pool8.firstBlock
      ∧ (MemoryPool.deallocate pool8 8).blockSize = pool8.blockSize
      ∧ (MemoryPool.deallocate pool8 8).locks = pool8.locks) :=
  ⟨by decide, deallocate_frame_effect pool8 8 (by decide)⟩

/-- C9 counterexample: a zero size passed to `freeMemory` with a non-null
address is NOT handled locally as a no-op: the `size_t` index computation
`((0 + 7) / 8) - 1` wraps around to `2 ^ 64 - 1`, far outside the valid
range `0 .. MEMORY_POOL_NUM - 1`, so the call performs an out-of-bounds
access on the static pool array instead of leaving the state unchanged
(in the model: the phantom pool at index `2 ^ 64 - 1` is mutated). -/
theorem freeMemory_zero_size_cex :
    HashBucket.freeMemoryRoute 1 0 ≠ HashBucket.Route.noop
    ∧ HashBucket.freeMemoryRoute 1 0 = HashBucket.Route.pool (SIZE_T_MOD - 1)
    ∧ MEMORY_POOL_NUM ≤ SIZE_T_MOD - 1
    ∧ ((HashBucket.freeMemory HashBucket.initialHBState 1 0).pools
        (SIZE_T_MOD - 1)).freeList = [1]
    ∧ (HashBucket.initialHBState.pools (SIZE_T_MOD - 1)).freeList = [] := by
  refine ⟨by decide, by decide, by decide, ?_, by decide⟩
  decide

/-- C9 (amended): invalid arguments that the code does guard are handled
locally and never escalated: a zero size to `useMemory` returns null and
leaves the router state unchanged; a null address to `freeMemory` or to
`MemoryPool::deallocate` is a no-op; but a zero size to `freeMemory`
with a non-null address is unguarded and wraps the pool index around to
`2 ^ 64 - 1` instead of being treated as a no-op. -/
theorem invalid_args_handling :
    (∀ st : HBState, ∀ fresh : Nat, HashBucket.useMemory st 0 fresh = (0, st))
    ∧ HashBucket.useMemoryRoute 0 = HashBucket.Route.null
    ∧ (∀ st : HBState, ∀ size : Nat, HashBucket.freeMemory st 0 size = st)
    ∧ (∀ size : Nat, HashBucket.freeMemoryRoute 0 size = HashBucket.Route.noop)
    ∧ (∀ st : PoolState, MemoryPool.deallocate st 0 = st)
    ∧ HashBucket.freeMemoryRoute 1 0 = HashBucket.Route.pool (SIZE_T_MOD - 1) := by
  refine ⟨fun st fresh => rfl, by decide, fun st size => rfl, fun size => rfl,
    fun st => rfl, by decide⟩

/-- C3 counterexample: on a pool initialized with slot size 12 (allowed
by `init`, which only requires a positive size) the bump path does NOT
advance the cursor by `slotSize`: `curSlot_ += SlotSize_ / sizeof(Slot)`
is `Slot*`-typed pointer arithmetic, so the cursor advances by
`(12 / 8) * 8 = 8` bytes.  After a first allocation (which grows a chunk
at block address 1024), the state is a bump state (empty free stack,
cursor 1040 strictly below boundary 5109); the next allocation returns
the cursor but advances it by 8, not 12. -/
theorem allocate_bump_advance_cex :
    ((MemoryPool.allocate (MemoryPool.init (MemoryPool.create 4096) 12) 1024).2.freeList = []
      ∧ (MemoryPool.allocate (MemoryPool.init (MemoryPool.create 4096) 12) 1024).2.curSlot
          < (MemoryPool.allocate (MemoryPool.init (MemoryPool.create 4096) 12) 1024).2.lastSlot
      ∧ (MemoryPool.allocate (MemoryPool.init (MemoryPool.create 4096) 12) 1024).2.slotSize = 12)
    ∧ (MemoryPool.allocate
        (MemoryPool.allocate (MemoryPool.init (MemoryPool.create 4096) 12) 1024).2 0).1
        = (MemoryPool.allocate (MemoryPool.init (MemoryPool.create 4096) 12) 1024).2.curSlot
    ∧ (MemoryPool.allocate
        (MemoryPool.allocate (MemoryPool.init (MemoryPool.create 4096) 12) 1024).2 0).2.curSlot
        = 1048
    ∧ (MemoryPool.allocate (MemoryPool.init (MemoryPool.create 4096) 12) 1024).2.curSlot = 1040
    ∧ ¬ (MemoryPool.allocate
          (MemoryPool.allocate (MemoryPool.init (MemoryPool.create 4096) 12) 1024).2 0).2.curSlot
        = (MemoryPool.allocate (MemoryPool.init (MemoryPool.create 4096) 12) 1024).2.curSlot + 12 := by
  decide

/-- C3 (amended): on the bump path (empty free stack, cursor strictly
below the boundary) `allocate` returns the current cursor and advances
it by `SlotSize_ / sizeof(Slot) * sizeof(Slot)` bytes, which equals
`slotSize` exactly when `sizeof(Slot) = 8` divides `slotSize` — as it
does for every pool configured by the router (multiples of the 8-byte
granularity).  Consequently two consecutive bump allocations within a
single chunk with no intervening deallocate return addresses exactly
`slotSize` bytes apart. -/
theorem allocate_bump_contiguous (st : PoolState) (f1 f2 : Nat)
    (hfree : st.freeList = [])
    (hdvd : sizeofSlot ∣ st.slotSize)
    (hcur : st.curSlot < st.lastSlot)
    (hcur2 : st.curSlot + st.slotSize < st.lastSlot) :
    (MemoryPool.allocate st f1).1 = st.curSlot
    ∧ (MemoryPool.allocate st f1).2.curSlot = st.curSlot + st.slotSize
    ∧ (MemoryPool.allocate (MemoryPool.allocate st f1).2 f2).1
        = (MemoryPool.allocate st f1).1 + st.slotSize := by
  have hstep : st.slotSize / sizeofSlot * sizeofSlot = st.slotSize :=
    Nat.div_mul_cancel hdvd
  have h1 : MemoryPool.allocate st f1 =
      (st.curSlot,
       { st with
         locks := st.locks + 1
         curSlot := st.curSlot + st.slotSize / sizeofSlot * sizeofSlot }) :=
    MemoryPool.allocate_noGrow st f1 hfree hcur
  rw [h1]
  refine ⟨rfl, by simp [hstep], ?_⟩
  have h2 := MemoryPool.allocate_noGrow
    ({ st with
       locks := st.locks + 1
       curSlot := st.curSlot + st.slotSize / sizeofSlot * sizeofSlot }) f2
    (by simp [hfree]) (by simp [hstep]; omega)
  rw [h2]
  simp [hstep]

/-- C3 witness: the amended statement at the concrete bump state reached
after one allocation on an 8-byte pool (block at 1024): the two bump
allocations return 1040 and 1048, exactly 8 bytes apart. -/
theorem allocate_bump_contiguous_witness :
    ((MemoryPool.allocate pool8 1024).2.freeList = []
      ∧ sizeofSlot ∣ (MemoryPool.allocate pool8 1024).2.slotSize
      ∧ (MemoryPool.allocate pool8 1024).2.curSlot
          < (MemoryPool.allocate pool8 1024).2.lastSlot
      ∧ (MemoryPool.allocate pool8 1024).2.curSlot
            + (MemoryPool.allocate pool8 1024).2.slotSize
          < (MemoryPool.allocate pool8 1024).2.lastSlot)
    ∧ ((MemoryPool.allocate (MemoryPool.allocate pool8 1024).2 0).1
          = (MemoryPool.allocate pool8 1024).2.curSlot
      ∧ (MemoryPool.allocate (MemoryPool.allocate pool8 1024).2 0).2.curSlot
          = (MemoryPool.allocate pool8 1024).2.curSlot
            + (MemoryPool.allocate pool8 1024).2.slotSize
      ∧ (MemoryPool.allocate
            (MemoryPool.allocate (MemoryPool.allocate pool8 1024).2 0).2 0).1
          = (MemoryPool.allocate (MemoryPool.allocate pool8 1024).2 0).1
            + (MemoryPool.allocate pool8 1024).2.slotSize) :=
  ⟨⟨by decide, by decide, by decide, by decide⟩,
    allocate_bump_contiguous (MemoryPool.allocate pool8 1024).2 0 0
      (by decide) (by decide) (by decide) (by decide)⟩

/-- Padding is strictly smaller than the alignment. -/
lemma padPointer_lt (p align : Nat) (h : 0 < align) :
    MemoryPool.padPointer p align < align := by
  unfold MemoryPool.padPointer
  simp only
  by_cases hr : p % align = 0
  · rw [if_pos hr]
    exact h
  · rw [if_neg hr]
    omega

/-- The padded address is a multiple of the alignment. -/
lemma padPointer_add_mod (p align : Nat) (h : 0 < align) :
    (p + MemoryPool.padPointer p align) % align = 0 := by
  unfold MemoryPool.padPointer
  simp only
  by_cases hr : p % align = 0
  · rw [if_pos hr, Nat.add_zero]
    exact hr
  · rw [if_neg hr]
    have hd := Nat.div_add_mod p align
    have hlt : p % align < align := Nat.mod_lt p h
    have he : p + (align - p % align) = align * (p / align + 1) := by
      rw [Nat.mul_succ]
      omega
    rw [he, Nat.mul_mod_right]

/-- When no wrap-around occurs, `wsub` is plain subtraction. -/
lemma wsub_small (a b : Nat) (hb : b ≤ a) (ha : a < SIZE_T_MOD) :
    wsub a b = a - b := by
  unfold wsub
  have hbM : b < SIZE_T_MOD := lt_of_le_of_lt hb ha
  rw [Nat.mod_eq_of_lt ha, Nat.mod_eq_of_lt hbM]
  have he : a + (SIZE_T_MOD - b) = SIZE_T_MOD + (a - b) := by omega
  rw [he, Nat.add_mod_left, Nat.mod_eq_of_lt (by omega)]

/-- C5 counterexample: the invariant `cursor <= boundary` does NOT hold
after every successful allocation.  Pool with block size 24 and slot
size 8, chunk grown at block address 1024: the boundary is
`1024 + 24 - 8 + 1 = 1041` and the first allocation leaves the cursor at
1040; the second allocation succeeds (returns 1040, the final slot of
the chunk) and leaves the cursor at `1048 > 1041`. -/
theorem cursor_boundary_cex :
    (MemoryPool.allocate (MemoryPool.init (MemoryPool.create 24) 8) 1024).1 = 1032
    ∧ (MemoryPool.allocate (MemoryPool.init (MemoryPool.create 24) 8) 1024).2.curSlot = 1040
    ∧ (MemoryPool.allocate (MemoryPool.init (MemoryPool.create 24) 8) 1024).2.lastSlot = 1041
    ∧ (MemoryPool.allocate
        (MemoryPool.allocate (MemoryPool.init (MemoryPool.create 24) 8) 1024).2 2048).1 = 1040
    ∧ (MemoryPool.allocate
        (MemoryPool.allocate (MemoryPool.init (MemoryPool.create 24) 8) 1024).2 2048).2.curSlot
        = 1048
    ∧ (MemoryPool.allocate
        (MemoryPool.allocate (MemoryPool.init (MemoryPool.create 24) 8) 1024).2 2048).2.lastSlot
        = 1041
    ∧ ¬ ((MemoryPool.allocate
          (MemoryPool.allocate (MemoryPool.init (MemoryPool.create 24) 8) 1024).2 2048).2.curSlot
        ≤ (MemoryPool.allocate
          (MemoryPool.allocate (MemoryPool.init (MemoryPool.create 24) 8) 1024).2 2048).2.lastSlot) := by
  decide

/-- C5 (amended): the invariant that actually holds after every
successful allocation is `cursor <= boundary + slotSize` (the cursor may
pass the boundary by at most one slot, exactly after the chunk's final
slot is allocated); the address returned by a bump-path allocation is
itself always strictly below the boundary; and on chunk growth the
boundary is set to `chunk_start + chunk_size - slotSize + 1` and the
cursor to the padded first usable address past the chunk header word,
then advanced by one slot.  Hypotheses: the slot size is a positive
multiple of `sizeof(Slot)`, the block size leaves room for the first
slot (`2 * slotSize + 7 <= blockSize`), and the grown chunk fits in the
address space. -/
theorem cursor_boundary_invariant (st : PoolState) (fresh : Nat)
    (hdvd : sizeofSlot ∣ st.slotSize)
    (hpos : 0 < st.slotSize)
    (hblock : 2 * st.slotSize + 7 ≤ st.blockSize)
    (hfit : fresh + st.blockSize < SIZE_T_MOD)
    (hinv : st.curSlot ≤ st.lastSlot + st.slotSize) :
    (MemoryPool.allocate st fresh).2.curSlot
        ≤ (MemoryPool.allocate st fresh).2.lastSlot + st.slotSize
    ∧ (st.freeList = [] →
        (MemoryPool.allocate st fresh).1 < (MemoryPool.allocate st fresh).2.lastSlot)
    ∧ (st.freeList = [] → st.lastSlot ≤ st.curSlot →
        (MemoryPool.allocate st fresh).2.curSlot
          = fresh + sizeofSlotPtr
            + MemoryPool.padPointer (fresh + sizeofSlotPtr) st.slotSize
            + st.slotSize
        ∧ (MemoryPool.allocate st fresh).2.lastSlot
          = fresh + st.blockSize - st.slotSize + 1) := by
  obtain ⟨bs, ss, fb, cs, ls, fl, lk⟩ := st
  replace hdvd : sizeofSlot ∣ ss := hdvd
  replace hpos : 0 < ss := hpos
  replace hblock : 2 * ss + 7 ≤ bs := hblock
  replace hfit : fresh + bs < SIZE_T_MOD := hfit
  replace hinv : cs ≤ ls + ss := hinv
  have hstep : ss / sizeofSlot * sizeofSlot = ss := Nat.div_mul_cancel hdvd
  have hps : sizeofSlotPtr = 8 := rfl
  rcases fl with _ | ⟨a, rest⟩
  · by_cases hg : ls ≤ cs
    · have hw : wsub (fresh + bs) ss = fresh + bs - ss :=
        wsub_small _ _ (by omega) hfit
      have hpad := padPointer_lt (fresh + sizeofSlotPtr) ss hpos
      have hmod : (fresh + bs - ss + 1) % SIZE_T_MOD = fresh + bs - ss + 1 :=
        Nat.mod_eq_of_lt (by omega)
      simp only [hps] at hpad
      refine ⟨?_, fun _ => ?_, fun _ _ => ⟨?_, ?_⟩⟩ <;>
        simp only [MemoryPool.allocate, MemoryPool.popFreeList,
          MemoryPool.allocateNewBlock, hg, if_true, hstep, hps, hw, hmod] <;>
        omega
    · refine ⟨?_, fun _ => ?_, fun _ h2 => absurd h2 hg⟩ <;>
        simp only [MemoryPool.allocate, MemoryPool.popFreeList, hg, if_false,
          hstep] <;>
        omega
  · exact ⟨hinv, fun h => by simp at h, fun h => by simp at h⟩

/-- C5 witness: the amended invariant instantiated on the concrete
8-byte pool growing its first chunk at block address 1024: the
allocation returns 1032 < boundary 5113, and the post-state satisfies
`cursor = 1040 <= 5113 + 8`. -/
theorem cursor_boundary_invariant_witness :
    (sizeofSlot ∣ pool8.slotSize
      ∧ 0 < pool8.slotSize
      ∧ 2 * pool8.slotSize + 7 ≤ pool8.blockSize
      ∧ 1024 + pool8.blockSize < SIZE_T_MOD
      ∧ pool8.curSlot ≤ pool8.lastSlot + pool8.slotSize)
    ∧ (MemoryPool.allocate pool8 1024).2.curSlot
        ≤ (MemoryPool.allocate pool8 1024).2.lastSlot + pool8.slotSize
    ∧ (MemoryPool.allocate pool8 1024).1 < (MemoryPool.allocate pool8 1024).2.lastSlot
    ∧ (MemoryPool.allocate pool8 1024).2.curSlot
        = 1024 + sizeofSlotPtr
          + MemoryPool.padPointer (1024 + sizeofSlotPtr) pool8.slotSize
          + pool8.slotSize
    ∧ (MemoryPool.allocate pool8 1024).2.lastSlot
        = 1024 + pool8.blockSize - pool8.slotSize + 1 :=
  ⟨⟨by decide, by decide, by decide, by decide, by decide⟩,
    (cursor_boundary_invariant pool8 1024 (by decide) (by decide) (by decide)
      (by decide) (by decide)).1,
    (cursor_boundary_invariant pool8 1024 (by decide) (by decide) (by decide)
      (by decide) (by decide)).2.1 rfl,
    ((cursor_boundary_invariant pool8 1024 (by decide) (by decide) (by decide)
      (by decide) (by decide)).2.2 rfl (by decide)).1,
    ((cursor_boundary_invariant pool8 1024 (by decide) (by decide) (by decide)
      (by decide) (by decide)).2.2 rfl (by decide)).2⟩

/-- The byte step `SlotSize_ / sizeof(Slot) * sizeof(Slot)` of the bump
cursor is a multiple of the slot size whenever the slot size divides or
is divided by `sizeof(Slot)` (powers of two up to 8, and all multiples
of 8). -/
lemma slot_step_dvd (s : Nat) (hpos : 0 < s)
    (hdvd : s ∣ sizeofSlot ∨ sizeofSlot ∣ s) :
    s ∣ s / sizeofSlot * sizeofSlot := by
  rcases hdvd with h | h
  · have hs : s ≤ sizeofSlot := Nat.le_of_dvd (by decide) h
    have hs8 : sizeofSlot = 8 := rfl
    rw [hs8] at hs h ⊢
    interval_cases s <;> revert h <;> decide
  · rw [Nat.div_mul_cancel h]

/-- C4: `padPointer` returns 0 when the address is already a multiple of
`align` and `align - (address mod align)` otherwise, so the padded
address is a multiple of `align`; and for every slot size that is a
power of two or the 8-byte granularity (i.e. divides or is divided by
`sizeof(Slot) = 8`), allocation preserves alignment: from a pool whose
cursor and free-stack entries are multiples of the slot size, the
address returned by `allocate` is a multiple of the slot size (on the
free-stack reuse path, the no-growth bump path and the chunk-growth
path alike), the resulting pool is again aligned, `deallocate` of an
aligned address keeps the pool aligned, and a freshly `init`ed pool is
aligned. -/
theorem padPointer_and_alignment (st : PoolState) (fresh ptr : Nat)
    (hpos : 0 < st.slotSize)
    (hdvd : st.slotSize ∣ sizeofSlot ∨ sizeofSlot ∣ st.slotSize)
    (hinv : AlignedState st)
    (hptr : ptr % st.slotSize = 0) :
    (∀ p align : Nat,
      MemoryPool.padPointer p align
        = if p % align = 0 then 0 else align - p % align)
    ∧ (∀ p align : Nat, 0 < align →
        (p + MemoryPool.padPointer p align) % align = 0)
    ∧ (MemoryPool.allocate st fresh).1 % st.slotSize = 0
    ∧ AlignedState (MemoryPool.allocate st fresh).2
    ∧ AlignedState (MemoryPool.deallocate st ptr)
    ∧ (∀ st0 : PoolState, ∀ s : Nat, AlignedState (MemoryPool.init st0 s)) := by
  obtain ⟨bs, ss, fb, cs, ls, fl, lk⟩ := st
  replace hpos : 0 < ss := hpos
  replace hdvd : ss ∣ sizeofSlot ∨ sizeofSlot ∣ ss := hdvd
  obtain ⟨hcs, hfl⟩ := hinv
  replace hcs : cs % ss = 0 := hcs
  replace hfl : ∀ a ∈ fl, a % ss = 0 := hfl
  replace hptr : ptr % ss = 0 := hptr
  obtain ⟨k, hk⟩ := slot_step_dvd ss hpos hdvd
  have hstepmod : ∀ x : Nat, x % ss = 0 →
      (x + ss / sizeofSlot * sizeofSlot) % ss = 0 := by
    intro x hx
    rw [hk, Nat.add_mul_mod_self_left]
    exact hx
  have hmain : (MemoryPool.allocate ⟨bs, ss, fb, cs, ls, fl, lk⟩ fresh).1 % ss = 0
      ∧ AlignedState (MemoryPool.allocate ⟨bs, ss, fb, cs, ls, fl, lk⟩ fresh).2 := by
    rcases fl with _ | ⟨a, rest⟩
    · by_cases hg : ls ≤ cs
      · have hpa := padPointer_add_mod (fresh + sizeofSlotPtr) ss hpos
        constructor
        · simp only [MemoryPool.allocate, MemoryPool.popFreeList,
            MemoryPool.allocateNewBlock, hg, if_true]
          exact hpa
        · refine ⟨?_, ?_⟩
          · simp only [MemoryPool.allocate, MemoryPool.popFreeList,
              MemoryPool.allocateNewBlock, hg, if_true]
            exact hstepmod _ hpa
          · simp only [MemoryPool.allocate, MemoryPool.popFreeList,
              MemoryPool.allocateNewBlock, hg, if_true]
            intro a ha
            cases ha
      · constructor
        · simp only [MemoryPool.allocate, MemoryPool.popFreeList, hg, if_false]
          exact hcs
        · refine ⟨?_, ?_⟩
          · simp only [MemoryPool.allocate, MemoryPool.popFreeList, hg, if_false]
            exact hstepmod _ hcs
          · simp only [MemoryPool.allocate, MemoryPool.popFreeList, hg, if_false]
            intro a ha
            cases ha
    · constructor
      · exact hfl a (List.mem_cons_self a rest)
      · exact ⟨hcs, fun x hx => hfl x (List.mem_cons_of_mem a hx)⟩
  have hdeall : AlignedState (MemoryPool.deallocate ⟨bs, ss, fb, cs, ls, fl, lk⟩ ptr) := by
    by_cases hp : ptr = 0
    · rw [MemoryPool.deallocate, if_pos hp]
      exact ⟨hcs, hfl⟩
    · rw [MemoryPool.deallocate, if_neg hp]
      refine ⟨hcs, fun x hx => ?_⟩
      rcases List.mem_cons.mp hx with rfl | hx'
      · exact hptr
      · exact hfl x hx'
  refine ⟨fun p align => rfl, fun p align h => padPointer_add_mod p align h,
    hmain.1, hmain.2, hdeall, fun st0 s => ⟨Nat.zero_mod s, fun a ha => ?_⟩⟩
  cases ha

/-- C4 witness: the alignment facts instantiated on the concrete 8-byte
pool, allocating with block address 1024 and freeing address 16. -/
theorem padPointer_and_alignment_witness :
    (0 < pool8.slotSize
      ∧ (pool8.slotSize ∣ sizeofSlot ∨ sizeofSlot ∣ pool8.slotSize)
      ∧ AlignedState pool8
      ∧ (16 : Nat) % pool8.slotSize = 0)
    ∧ ((∀ p align : Nat,
          MemoryPool.padPointer p align
            = if p % align = 0 then 0 else align - p % align)
      ∧ (∀ p align : Nat, 0 < align →
          (p + MemoryPool.padPointer p align) % align = 0)
      ∧ (MemoryPool.allocate pool8 1024).1 % pool8.slotSize = 0
      ∧ AlignedState (MemoryPool.allocate pool8 1024).2
      ∧ AlignedState (MemoryPool.deallocate pool8 16)
      ∧ (∀ st0 : PoolState, ∀ s : Nat, AlignedState (MemoryPool.init st0 s))) :=
  ⟨⟨by decide, by decide, by decide, by decide⟩,
    padPointer_and_alignment pool8 1024 16 (by decide) (by decide) (by decide)
      (by decide)⟩

/-- After `initMemoryPool`, pool `i` of the registry has slot size
`(i + 1) * SLOT_BASE_SIZE`, for every index below `MEMORY_POOL_NUM`. -/
lemma initializedHBState_slotSize (i : Nat) (h : i < MEMORY_POOL_NUM) :
    (HashBucket.initializedHBState.pools i).slotSize
      = (i + 1) * SLOT_BASE_SIZE := by
  have hall : ∀ j : Fin MEMORY_POOL_NUM,
      (HashBucket.initializedHBState.pools j.val).slotSize
        = (j.val + 1) * SLOT_BASE_SIZE := by decide
  exact hall ⟨i, h⟩

/-- C6 counterexample: at the moment the static pool array is first
constructed (Meyers-singleton default construction inside
`getMemoryPool`), pool 0 has slot size 0, not
`(0 + 1) * SLOT_BASE_SIZE = 8`: the slot sizes are installed only by the
separate, explicit `initMemoryPool()` call (which the unit test performs
before any use, noting that the pools "must be initialized first"). -/
theorem registry_construction_cex :
    (HashBucket.initialHBState.pools 0).slotSize = 0
    ∧ (0 + 1) * SLOT_BASE_SIZE = 8
    ∧ (HashBucket.initialHBState.pools 0).slotSize
        ≠ (0 + 1) * SLOT_BASE_SIZE := by
  exact ⟨rfl, rfl, by decide⟩

/-- C6 (amended): the lazily constructed registry default-initializes
every pool with slot size 0; it is the explicit
`HashBucket::initMemoryPool()` call — which callers must perform before
the first real use, as the unit test does — that configures pool `i`
with slot size `(i + 1) * SLOT_BASE_SIZE`, for every
`i < MEMORY_POOL_NUM`. -/
theorem registry_config_after_init (i : Nat) (h : i < MEMORY_POOL_NUM) :
    (HashBucket.initialHBState.pools i).slotSize = 0
    ∧ (HashBucket.initializedHBState.pools i).slotSize
        = (i + 1) * SLOT_BASE_SIZE :=
  ⟨rfl, initializedHBState_slotSize i h⟩

/-- C6 witness: the last pool, index 63, carries slot size
`64 * 8 = 512` after `initMemoryPool` and 0 before. -/
theorem registry_config_after_init_witness :
    63 < MEMORY_POOL_NUM
    ∧ ((HashBucket.initialHBState.pools 63).slotSize = 0
      ∧ (HashBucket.initializedHBState.pools 63).slotSize
          = (63 + 1) * SLOT_BASE_SIZE) :=
  ⟨by decide, registry_config_after_init 63 (by decide)⟩

/-- C7: for every request size between 1 and `MAX_SLOT_SIZE`, the router
dispatches to the pool of index
`((size + SLOT_BASE_SIZE - 1) / SLOT_BASE_SIZE) - 1`, whose configured
slot size (after `initMemoryPool`) is
`SLOT_BASE_SIZE * ceil(size / SLOT_BASE_SIZE)`, which is at least
`size` — so every slot handed out is at least as large as the
request. -/
theorem router_serves_at_least (size : Nat) (h1 : 1 ≤ size)
    (h2 : size ≤ MAX_SLOT_SIZE) :
    HashBucket.useMemoryRoute size
        = HashBucket.Route.pool ((size + SLOT_BASE_SIZE - 1) / SLOT_BASE_SIZE - 1)
    ∧ (HashBucket.initializedHBState.pools
          ((size + SLOT_BASE_SIZE - 1) / SLOT_BASE_SIZE - 1)).slotSize
        = SLOT_BASE_SIZE * ((size + SLOT_BASE_SIZE - 1) / SLOT_BASE_SIZE)
    ∧ size ≤ (HashBucket.initializedHBState.pools
          ((size + SLOT_BASE_SIZE - 1) / SLOT_BASE_SIZE - 1)).slotSize := by
  replace h2 : size ≤ 512 := h2
  have h0 : ¬ (size = 0) := by omega
  have hlt : ¬ (MAX_SLOT_SIZE < size) := by
    show ¬ (512 < size)
    omega
  have hidx : (size + SLOT_BASE_SIZE - 1) / SLOT_BASE_SIZE - 1 < MEMORY_POOL_NUM := by
    show (size + 8 - 1) / 8 - 1 < 64
    omega
  have hsz := initializedHBState_slotSize _ hidx
  refine ⟨?_, ?_, ?_⟩
  · simp only [HashBucket.useMemoryRoute]
    rw [if_neg h0, if_neg hlt]
  · rw [hsz]
    show ((size + 8 - 1) / 8 - 1 + 1) * 8 = 8 * ((size + 8 - 1) / 8)
    omega
  · rw [hsz]
    show size ≤ ((size + 8 - 1) / 8 - 1 + 1) * 8
    omega

/-- C7 witness: a 5-byte request goes to pool 0, whose slot size 8 is at
least 5. -/
theorem router_serves_at_least_witness :
    (1 ≤ 5 ∧ 5 ≤ MAX_SLOT_SIZE)
    ∧ (HashBucket.useMemoryRoute 5
        = HashBucket.Route.pool ((5 + SLOT_BASE_SIZE - 1) / SLOT_BASE_SIZE - 1)
      ∧ (HashBucket.initializedHBState.pools
            ((5 + SLOT_BASE_SIZE - 1) / SLOT_BASE_SIZE - 1)).slotSize
          = SLOT_BASE_SIZE * ((5 + SLOT_BASE_SIZE - 1) / SLOT_BASE_SIZE)
      ∧ 5 ≤ (HashBucket.initializedHBState.pools
            ((5 + SLOT_BASE_SIZE - 1) / SLOT_BASE_SIZE - 1)).slotSize) :=
  ⟨⟨by decide, by decide⟩, router_serves_at_least 5 (by decide) (by decide)⟩

/-- `deleteElement` on a non-null pointer runs one destructor and calls
`freeMemory` with the same size. -/
lemma deleteElement_pos (S : HBState) (P size : Nat) (hP : P ≠ 0) :
    deleteElement S P size = (HashBucket.freeMemory S P size, 1) := by
  unfold deleteElement
  rw [if_neg hP]

/-- `freeMemory` on the pool path computes the same index as `useMemory`
and pushes the freed address at the head of exactly that pool's free
stack, leaving every other pool untouched. -/
lemma freeMemory_pool (S : HBState) (P size : Nat) (hP : P ≠ 0)
    (h1 : 1 ≤ size) (h2 : size ≤ MAX_SLOT_SIZE) :
    ((HashBucket.freeMemory S P size).pools
        ((size + SLOT_BASE_SIZE - 1) / SLOT_BASE_SIZE - 1)).freeList
      = P :: ((S.pools ((size + SLOT_BASE_SIZE - 1) / SLOT_BASE_SIZE - 1)).freeList)
    ∧ ∀ j, j ≠ (size + SLOT_BASE_SIZE - 1) / SLOT_BASE_SIZE - 1 →
        (HashBucket.freeMemory S P size).pools j = S.pools j := by
  replace h2 : size ≤ 512 := h2
  have h512 : ¬ (MAX_SLOT_SIZE < size) := by
    show ¬ (512 < size)
    omega
  have hq1 : 1 ≤ (size + 7) / SLOT_BASE_SIZE := by
    show 1 ≤ (size + 7) / 8
    omega
  have hq2 : (size + 7) / SLOT_BASE_SIZE < SIZE_T_MOD := by
    show (size + 7) / 8 < 18446744073709551616
    omega
  have hie : wsub ((size + 7) / SLOT_BASE_SIZE) 1
      = (size + SLOT_BASE_SIZE - 1) / SLOT_BASE_SIZE - 1 := by
    rw [wsub_small _ 1 hq1 hq2]
    show (size + 7) / 8 - 1 = (size + 8 - 1) / 8 - 1
    omega
  have hfm : HashBucket.freeMemory S P size
      = ⟨HashBucket.updatePools S.pools
          ((size + SLOT_BASE_SIZE - 1) / SLOT_BASE_SIZE - 1)
          (MemoryPool.deallocate
            (S.pools ((size + SLOT_BASE_SIZE - 1) / SLOT_BASE_SIZE - 1)) P)⟩ := by
    simp only [HashBucket.freeMemory]
    rw [if_neg hP, if_neg h512, hie]
  refine ⟨?_, fun j hj => ?_⟩
  · rw [hfm]
    simp only [HashBucket.updatePools]
    rw [if_true]
    unfold MemoryPool.deallocate MemoryPool.pushFreeList
    rw [if_neg hP]
  · rw [hfm]
    simp only [HashBucket.updatePools]
    rw [if_neg hj]

/-- C8: the typed round trip.  `newElement` obtains `sizeof(T)` bytes
from the router and, when the storage is non-null, performs exactly one
in-place construction (none when the router returns null); a subsequent
`deleteElement` on the non-null pointer runs exactly one destructor and
returns the storage to the router with the same size `sizeof(T)`, which
pushes the address back — exactly once — onto the free stack of the very
pool that served it, leaving every other pool unchanged (no leak, no
double free); `deleteElement` on null is a no-op. -/
theorem newElement_deleteElement_roundtrip (st : HBState) (sizeofT fresh : Nat)
    (h1 : 1 ≤ sizeofT) (h2 : sizeofT ≤ MAX_SLOT_SIZE)
    (hp : (HashBucket.useMemory st sizeofT fresh).1 ≠ 0) :
    (newElement st sizeofT fresh).1 = (HashBucket.useMemory st sizeofT fresh).1
    ∧ (newElement st sizeofT fresh).2.2 = 1
    ∧ (deleteElement (newElement st sizeofT fresh).2.1
        (newElement st sizeofT fresh).1 sizeofT).2 = 1
    ∧ ((deleteElement (newElement st sizeofT fresh).2.1
          (newElement st sizeofT fresh).1 sizeofT).1.pools
          ((sizeofT + SLOT_BASE_SIZE - 1) / SLOT_BASE_SIZE - 1)).freeList
        = (newElement st sizeofT fresh).1
          :: (((newElement st sizeofT fresh).2.1.pools
                ((sizeofT + SLOT_BASE_SIZE - 1) / SLOT_BASE_SIZE - 1)).freeList)
    ∧ (∀ j, j ≠ (sizeofT + SLOT_BASE_SIZE - 1) / SLOT_BASE_SIZE - 1 →
        (deleteElement (newElement st sizeofT fresh).2.1
          (newElement st sizeofT fresh).1 sizeofT).1.pools j
          = (newElement st sizeofT fresh).2.1.pools j)
    ∧ (∀ st2 : HBState, deleteElement st2 0 sizeofT = (st2, 0)) := by
  have e1 : (newElement st sizeofT fresh).1
      = (HashBucket.useMemory st sizeofT fresh).1 := rfl
  have e2 : (newElement st sizeofT fresh).2.1
      = (HashBucket.useMemory st sizeofT fresh).2 := rfl
  refine ⟨rfl, ?_, ?_, ?_, fun j hj => ?_, fun st2 => rfl⟩
  · show (if (HashBucket.useMemory st sizeofT fresh).1 = 0 then 0 else 1) = 1
    rw [if_neg hp]
  · rw [e1, e2, deleteElement_pos _ _ _ hp]
  · rw [e1, e2, deleteElement_pos _ _ _ hp]
    exact (freeMemory_pool _ _ _ hp h1 h2).1
  · rw [e1, e2, deleteElement_pos _ _ _ hp]
    exact (freeMemory_pool _ _ _ hp h1 h2).2 j hj

/-- C8 witness: round trip of an 8-byte object through the initialized
router, with system block address 4096: the storage (address 4104) is
constructed once, destroyed once, and returned to pool 0's free
stack. -/
theorem newElement_deleteElement_roundtrip_witness :
    (1 ≤ 8 ∧ 8 ≤ MAX_SLOT_SIZE
      ∧ (HashBucket.useMemory HashBucket.initializedHBState 8 4096).1 ≠ 0)
    ∧ ((newElement HashBucket.initializedHBState 8 4096).1
        = (HashBucket.useMemory HashBucket.initializedHBState 8 4096).1
      ∧ (newElement HashBucket.initializedHBState 8 4096).2.2 = 1
      ∧ (deleteElement (newElement HashBucket.initializedHBState 8 4096).2.1
          (newElement HashBucket.initializedHBState 8 4096).1 8).2 = 1
      ∧ ((deleteElement (newElement HashBucket.initializedHBState 8 4096).2.1
            (newElement HashBucket.initializedHBState 8 4096).1 8).1.pools
            ((8 + SLOT_BASE_SIZE - 1) / SLOT_BASE_SIZE - 1)).freeList
          = (newElement HashBucket.initializedHBState 8 4096).1
            :: (((newElement HashBucket.initializedHBState 8 4096).2.1.pools
                  ((8 + SLOT_BASE_SIZE - 1) / SLOT_BASE_SIZE - 1)).freeList)
      ∧ (∀ j, j ≠ (8 + SLOT_BASE_SIZE - 1) / SLOT_BASE_SIZE - 1 →
          (deleteElement (newElement HashBucket.initializedHBState 8 4096).2.1
            (newElement HashBucket.initializedHBState 8 4096).1 8).1.pools j
            = (newElement HashBucket.initializedHBState 8 4096).2.1.pools j)
      ∧ (∀ st2 : HBState, deleteElement st2 0 8 = (st2, 0))) :=
  ⟨⟨by decide, by decide, by decide⟩,
    newElement_deleteElement_roundtrip HashBucket.initializedHBState 8 4096
      (by decide) (by decide) (by decide)⟩

end Kama_memoryPool
